import Mathlib

/-!
Shallow embedding of the JFTT tester harness (src/tester/tester.py and
src/tester/tests.py) used to settle the specification claims.

Modelling conventions:
* Python strings are modelled as `List Char` (`Str`), byte strings as
  `List Nat` (`Bytes`).
* The external compiler and interpreter subprocesses, `bytes.decode('utf-8')`
  and `str.encode('utf-8')` are modelled as an oracle record `Env`:
  `none` results model a raised exception (process could not be invoked,
  non-zero exit, undecodable output such as the byte 0xFF, ...).
* The file system is a map from path to contents (`FS`); `mkstemp` creates an
  empty file at a caller-supplied fresh path.
* The metadata registry `tests.main` is a map from key to entry (`Reg`).
  A Python dict entry is aliased by `meta = tests_dct[key]`, so mutations of
  `meta` performed by the harness are written back into the registry.
* A Python dict gaining the key `'real_output'` is modelled by the
  `real_output : Option RealOut` field of `MetaEntry` (`none` = key absent,
  which is the state of every entry of tests.py at process start).
* Exceptions are modelled by explicit result constructors; an exception that
  no handler of the harness catches is modelled by `RunRes.aborted`.
-/

abbrev Str := List Char
abbrev Bytes := List Nat

/-- The dynamic value the harness stores under `meta['real_output']`:
either the parsed interpreter output, the literal diagnostic string
`"Compilation failed"`, or a caught exception object. -/
inductive RealOut where
  | parsed (toks : List Str)
  | compFailedMsg
  | excPayload
deriving DecidableEq

/-- One entry of the `tests.main` registry of src/tester/tests.py:
`{title, input, output}`, plus the `real_output` key the harness may add
(`none` means the key is absent, as at process start). -/
structure MetaEntry where
  title : Str
  input : List (List Str)
  output : List (List Str)
  real_output : Option RealOut
deriving DecidableEq

abbrev FS := Str → Option Bytes
abbrev Reg := Str → Option MetaEntry

/-- Oracle for the external world: compiler subprocess, interpreter
subprocess, UTF-8 decoding and encoding.  `none` models a raised
exception. -/
structure Env where
  compilerOut : Bytes → Option Bytes
  interpOut : Bytes → Bytes → Option Bytes
  decode : Bytes → Option Str
  encode : Str → Bytes

/-- The counters of class `Summary` in src/tester/tester.py. -/
structure Summary where
  failed : Nat
  passed : Nat
  compilation_failed : Nat
  no_meta : Nat
  exceptions : Nat
deriving DecidableEq

/-- The typed per-scenario outcome of the spec's Outcome Classifier. -/
inductive Outcome where
  | passed
  | failed (expected actual : List Str)
  | compilationFailed
  | compilationError
  | executionError
  | missingMetadata
  | malformedMetadata
deriving DecidableEq

/-- Python `str.split(sep)` (no maxsplit) on a one-character separator:
splits at every occurrence, `''.split(sep) == ['']`. -/
def pySplit (sep : Char) : Str → List Str
  | [] => [[]]
  | c :: rest =>
    if c = sep then [] :: pySplit sep rest
    else
      match pySplit sep rest with
      | h :: t => (c :: h) :: t
      | [] => [[c]]

/-- The text before the first occurrence of `sep` paired with the text after
it, or `none` when `sep` does not occur. -/
def breakAtSep (sep : Char) : Str → Option (Str × Str)
  | [] => none
  | c :: rest =>
    if c = sep then some ([], rest)
    else (breakAtSep sep rest).map (fun p => (c :: p.1, p.2))

/-- The text before the first occurrence of `sep` (the whole string when
`sep` does not occur). -/
def upToSep (sep : Char) : Str → Str
  | [] => []
  | c :: rest => if c = sep then [] else c :: upToSep sep rest

/-- Python `str.split(sep, maxsplit)` on a one-character separator. -/
def pySplitMax (sep : Char) : Nat → Str → List Str
  | 0, s => [s]
  | Nat.succ m, s =>
    match breakAtSep sep s with
    | none => [s]
    | some p => p.1 :: pySplitMax sep m p.2

/-- Python `str.strip()`: drop leading and trailing whitespace. -/
def pyStrip (s : Str) : Str :=
  ((s.dropWhile Char.isWhitespace).reverse.dropWhile Char.isWhitespace).reverse

/-- The per-line body of the comprehension in `parse_output`:
`line.split('>')[1].strip()` guarded by `len(line.split('>')) > 1`.
A line whose split on `'>'` has at least two parts (i.e. contains `'>'`)
contributes part index 1, stripped; other lines contribute nothing. -/
def lineTok (line : Str) : Option Str :=
  match pySplit '>' line with
  | _ :: x :: _ => some (pyStrip x)
  | _ => none

/-- Function `parse_output` of src/tester/tester.py:
`[line.split('>')[1].strip() for line in raw_output.split('\n')
  if len(line.split('>')) > 1]`. -/
def parse_output (raw : Str) : List Str :=
  (pySplit '\n' raw).filterMap lineTok

/-- Serialization `'\n'.join(...)` over the scenario's input tokens, then `.encode('utf-8')`
— `load_input` of src/tester/tester.py (tokens of tests.py are strings, so
`str(i)` is the identity). -/
def load_input (env : Env) (input_ : List Str) : Bytes :=
  env.encode (List.intercalate [Char.ofNat 10] input_)

/-- Result of `load_meta` of src/tester/tester.py.  `found` carries the
derived key together with the entry because the Python dict entry is aliased
(later mutations of the entry hit the registry at that key).  `indexError`
models the uncaught `IndexError` of `input_fpath.split('/', 2)[2]` on a path
with fewer than two '/'. -/
inductive LoadResult where
  | found (key : Str) (m : MetaEntry)
  | noMeta
  | indexError
deriving DecidableEq

/-- Function `load_meta` of src/tester/tester.py:
`meta = tests_dct[input_fpath.split('/', 2)[2]]`, `KeyError` mapped to
`NoMetaError`; an out-of-range index is not caught. -/
def load_meta (reg : Reg) (input_fpath : Str) : LoadResult :=
  match (pySplitMax '/' 2 input_fpath).get? 2 with
  | none => .indexError
  | some key =>
    match reg key with
    | none => .noMeta
    | some m => .found key m

/-- The substring after the second occurrence of `sep`, when it exists. -/
def afterSecondSep (sep : Char) (s : Str) : Option Str :=
  (breakAtSep sep s).bind (fun p => (breakAtSep sep p.2).map Prod.snd)

/-- Does `pat` occur at the start of `s`? (Python `s.startswith(pat)`.) -/
def leadsWith : Str → Str → Bool
  | [], _ => true
  | _ :: _, [] => false
  | p :: ps, c :: cs => p = c && leadsWith ps cs

/-- Python substring containment `pat in s`. -/
def containsSubstr (pat : Str) : Str → Bool
  | [] => leadsWith pat []
  | c :: rest => leadsWith pat (c :: rest) || containsSubstr pat rest

/-- The literal marker `'Syntax error'` tested by `compile_to_file`. -/
def syntaxErrMk : Str := "Syntax error".data

/-- Result of `compile_to_file` of src/tester/tester.py, as seen by its
caller `_compile`: normal return (carrying the compiler's output bytes,
which were also written to the artifact path), the raised
`CompilationFailed`, or any other raised exception (unreadable source file,
subprocess failure, undecodable compiler output). -/
inductive CompileRes where
  | ok (compiled : Bytes)
  | syntaxFailed
  | exc
deriving DecidableEq

/-- Functional update of the file-system map (a write creates or truncates
the file at `p`). -/
def fsSet (fs : FS) (p : Str) (b : Bytes) : FS :=
  fun q => if q = p then some b else fs q

/-- Models `os.remove(p)`. -/
def fsRemove (fs : FS) (p : Str) : FS :=
  fun q => if q = p then none else fs q

/-- Functional update of the registry map (Python dict-entry aliasing:
mutating the entry obtained from `tests_dct[key]` updates the table). -/
def regSet (reg : Reg) (key : Str) (m : MetaEntry) : Reg :=
  fun k => if k = key then some m else reg k

/-- Function `compile_to_file` of src/tester/tester.py: open the source file, pipe it
to the compiler subprocess, decode the captured stdout, raise
`CompilationFailed` when it contains `'Syntax error'`, otherwise write the
captured bytes verbatim to `output_fpath`.  `source = none` models an
unreadable source file (`open` raised). -/
def compile_to_file (env : Env) (source : Option Bytes) (fs : FS)
    (output_fpath : Str) : CompileRes × FS :=
  match source with
  | none => (.exc, fs)
  | some src =>
    match env.compilerOut src with
    | none => (.exc, fs)
    | some compiled =>
      match env.decode compiled with
      | none => (.exc, fs)
      | some txt =>
        if containsSubstr syntaxErrMk txt then (.syntaxFailed, fs)
        else (.ok compiled, fsSet fs output_fpath compiled)

/-- How `TestSubject.test` returns to `test_imp`: a normal return carrying
the comparison boolean, one of the three exceptions `test_imp` catches
(`CompilationFailed`, `CompilationException`, `RuntimeError`), or the
uncaught exception raised by `result.decode('utf-8')` on undecodable
interpreter output (that call sits outside the try/except). -/
inductive TestRes where
  | ret (b : Bool)
  | raiseCompFailed
  | raiseCompExc
  | raiseRuntime
  | uncaughtDecode
deriving DecidableEq

/-- Method `TestSubject.test` (with `_compile` inlined at its single call site) of
src/tester/tester.py.  Steps: `mkstemp` creates an empty temporary file;
`_compile` maps `CompilationFailed` to `real_output = "Compilation failed"`
and re-raises, and any other exception to `real_output = e` and
`CompilationException`; the interpreter subprocess is invoked on the
artifact, any exception becoming `real_output = e` plus `RuntimeError`;
the decoded output is parsed, stored in `real_output`, the temporary file
removed, and the comparison with `output_` returned.  Note `os.remove` is
only reached on the normal path. -/
def TestSubject.test (env : Env) (source : Option Bytes) (meta : MetaEntry)
    (fs : FS) (tmpPath : Str) (input_ : Bytes) (output_ : List Str) :
    TestRes × MetaEntry × FS :=
  match compile_to_file env source (fsSet fs tmpPath []) tmpPath with
  | (.syntaxFailed, fs2) =>
    (.raiseCompFailed, { meta with real_output := some RealOut.compFailedMsg }, fs2)
  | (.exc, fs2) =>
    (.raiseCompExc, { meta with real_output := some RealOut.excPayload }, fs2)
  | (.ok compiled, fs2) =>
    match env.interpOut compiled input_ with
    | none => (.raiseRuntime, { meta with real_output := some RealOut.excPayload }, fs2)
    | some resultBytes =>
      match env.decode resultBytes with
      | none => (.uncaughtDecode, meta, fs2)
      | some text =>
        let toks := parse_output text
        (.ret (decide (toks = output_)),
         { meta with real_output := some (RealOut.parsed toks) },
         fsRemove fs2 tmpPath)

/-- The summary updates the harness performs at the point each outcome is
handled: the branches of the `try/except` of `Tester.test_imp` and the
`except NoMetaError` of `Tester.test_dir`.  `missingMetadata` increments
nothing (`test_dir` only warns and continues); `malformedMetadata`
increments nothing (`test_imp` only warns and returns).  The
`except NoMetaError` clause inside `test_imp` (which would do
`no_meta += 1`) is unreachable, because nothing in `TestSubject.test`
raises `NoMetaError`. -/
def record (s : Summary) : Outcome → Summary
  | .passed => { s with passed := s.passed + 1 }
  | .failed _ _ => { s with failed := s.failed + 1 }
  | .compilationFailed => { s with compilation_failed := s.compilation_failed + 1 }
  | .compilationError => { s with compilation_failed := s.compilation_failed + 1 }
  | .executionError => { s with exceptions := s.exceptions + 1 }
  | .missingMetadata => s
  | .malformedMetadata => s

/-- The actual-output token list `print_error` reads back from
`meta['real_output']` for the `Failed` diagnostic. -/
def realOutputToks : Option RealOut → List Str
  | some (RealOut.parsed t) => t
  | _ => []

/-- The typed outcome of one scenario, read off the `try/except` branches of
`Tester.test_imp`: a clean return classifies as `passed`/`failed` (the
latter carrying expected and actual), the three caught exceptions classify
as their buckets, and the uncaught decode error yields no outcome (`none`:
the exception propagates). -/
def stepOutcome (output_ : List Str) : TestRes → MetaEntry → Option Outcome
  | .ret b, m =>
    some (if b then .passed else .failed output_ (realOutputToks m.real_output))
  | .raiseCompFailed, _ => some .compilationFailed
  | .raiseCompExc, _ => some .compilationError
  | .raiseRuntime, _ => some .executionError
  | .uncaughtDecode, _ => none

/-- A run fragment either completes normally or is cut short by an uncaught
exception; either way it has produced a final state. -/
inductive RunRes (α : Type) where
  | ok (a : α)
  | aborted (a : α)

/-- The `for in_, out_ in zip(inputs, outputs)` loop of `Tester.test_imp`:
each scenario gets a fresh temporary path `tmp i`, its outcome is recorded
into the summary, and an uncaught exception aborts the remaining
scenarios. -/
def test_imp_go (env : Env) (source : Option Bytes) (tmp : Nat → Str) :
    Nat → List (List Str × List Str) → MetaEntry → FS → Summary →
    RunRes (MetaEntry × FS × Summary × List Outcome)
  | _, [], meta, fs, s => .ok (meta, fs, s, [])
  | i, (in_, out_) :: rest, meta, fs, s =>
    match TestSubject.test env source meta fs (tmp i) (load_input env in_) out_ with
    | (res, meta2, fs2) =>
      match stepOutcome out_ res meta2 with
      | none => .aborted (meta2, fs2, s, [])
      | some o =>
        match test_imp_go env source tmp (i + 1) rest meta2 fs2 (record s o) with
        | .ok (m3, f3, s3, os) => .ok (m3, f3, s3, o :: os)
        | .aborted (m3, f3, s3, os) => .aborted (m3, f3, s3, o :: os)

/-- Method `Tester.test_imp` of src/tester/tester.py: when the scenario counts
disagree, warn once (`invalid_meta`) and return — no compile, no execution,
no counter change; otherwise run every scenario of the zip. -/
def test_imp (env : Env) (source : Option Bytes) (tmp : Nat → Str)
    (meta : MetaEntry) (fs : FS) (s : Summary) :
    RunRes (MetaEntry × FS × Summary × List Outcome) :=
  if meta.input.length ≠ meta.output.length then
    .ok (meta, fs, record s .malformedMetadata, [Outcome.malformedMetadata])
  else
    test_imp_go env source tmp 0 (meta.input.zip meta.output) meta fs s

/-- Method `Tester.test_dir` of src/tester/tester.py over one directory's file
list: look up metadata per file (`NoMetaError` warns and continues, an
`IndexError` from `load_meta` is uncaught and aborts), run `test_imp` on
the aliased entry, and write the (possibly mutated) entry back into the
registry at its key — the aliasing of the Python dict entry. -/
def test_dir (env : Env) (sources : Str → Option Bytes) (tmp : Str → Nat → Str) :
    List Str → Reg → FS → Summary → RunRes (Reg × FS × Summary × List Outcome)
  | [], reg, fs, s => .ok (reg, fs, s, [])
  | fpath :: rest, reg, fs, s =>
    match load_meta reg fpath with
    | .indexError => .aborted (reg, fs, s, [])
    | .noMeta =>
      match test_dir env sources tmp rest reg fs (record s .missingMetadata) with
      | .ok (r2, f2, s2, os) => .ok (r2, f2, s2, Outcome.missingMetadata :: os)
      | .aborted (r2, f2, s2, os) => .aborted (r2, f2, s2, Outcome.missingMetadata :: os)
    | .found key m =>
      match test_imp env (sources fpath) (tmp fpath) m fs s with
      | .ok (m2, fs2, s2, os1) =>
        match test_dir env sources tmp rest (regSet reg key m2) fs2 s2 with
        | .ok (r3, f3, s3, os) => .ok (r3, f3, s3, os1 ++ os)
        | .aborted (r3, f3, s3, os) => .aborted (r3, f3, s3, os1 ++ os)
      | .aborted (m2, fs2, s2, os1) =>
        .aborted (regSet reg key m2, fs2, s2, os1)

/-- The registry component of a dispatcher run's final state. -/
def regOf : RunRes (Reg × FS × Summary × List Outcome) → Reg
  | .ok a => a.1
  | .aborted a => a.1

/-- The outcome list of a dispatcher run's final state. -/
def outcomesOf : RunRes (Reg × FS × Summary × List Outcome) → List Outcome
  | .ok a => a.2.2.2
  | .aborted a => a.2.2.2

/-- Did the run end in an uncaught exception? -/
def isAbortedRun : RunRes (Reg × FS × Summary × List Outcome) → Bool
  | .ok _ => false
  | .aborted _ => true

/-! Concrete fixtures used by witnesses and counterexamples. -/

/-- The empty file system. -/
def fsEmpty : FS := fun _ => none

/-- A freshly constructed `Summary()` (all counters zero). -/
def s0 : Summary := Summary.mk 0 0 0 0 0

/-- A fixed temporary artifact path (what `mkstemp` might hand out). -/
def tmpPathW : Str := "/tmp/artifact".data

/-- A trivial temporary-path generator. -/
def tmpGenW : Str → Nat → Str := fun _ _ => tmpPathW

/-- Source files: every path readable with opaque contents `[7]`. -/
def srcsW : Str → Option Bytes := fun _ => some [7]

/-- A toolchain on which everything succeeds: the compiler prints the
artifact bytes `[7]`, the interpreter prints the UTF-8 bytes of `"> 10"`,
and decoding maps those bytes to the text `"> 10"` (anything else to a
text without the syntax-error marker). -/
def envOk : Env where
  compilerOut := fun _ => some [7]
  interpOut := fun _ _ => some [62, 32, 49, 48]
  decode := fun b => if b = [62, 32, 49, 48] then some ("> 10").data else some []
  encode := fun _ => []

/-- A toolchain whose compiler prints a diagnostic containing
`'Syntax error'`. -/
def envSyn : Env where
  compilerOut := fun _ => some [83]
  interpOut := fun _ _ => none
  decode := fun _ => some ("Syntax error").data
  encode := fun _ => []

/-- A toolchain whose compiler succeeds but whose interpreter subprocess
raises (e.g. non-zero exit status). -/
def envExecFail : Env where
  compilerOut := fun _ => some [7]
  interpOut := fun _ _ => none
  decode := fun _ => some []
  encode := fun _ => []

/-- A toolchain whose interpreter exits cleanly but prints the byte `0xFF`,
which `bytes.decode('utf-8')` rejects. -/
def envDecodeFail : Env where
  compilerOut := fun _ => some [7]
  interpOut := fun _ _ => some [255]
  decode := fun b => if b = [255] then none else some []
  encode := fun _ => []

/-- The registry entry of `'basic/read_put.imp'` in src/tester/tests.py,
as loaded at process start (no `real_output` key). -/
def entry0 : MetaEntry :=
  MetaEntry.mk ("Tests assignment, read and put").data
    [[("10").data]] [[("10").data]] none

/-- The registry key of the fixture file. -/
def keyW : Str := "basic/read_put.imp".data

/-- The fixture file's path as the directory walk produces it. -/
def fpathW : Str := "./in/basic/read_put.imp".data

/-- A one-entry registry mirroring the first entry of tests.py. -/
def reg0 : Reg := fun k => if k = keyW then some entry0 else none

/-- Two corpus files for the walk fixtures. -/
def fpathA : Str := "./in/a/x.imp".data

/-- Second corpus file. -/
def fpathB : Str := "./in/b/y.imp".data

/-- A registry holding entries for both walk fixture files. -/
def regAB : Reg := fun k =>
  if k = ("a/x.imp").data then some entry0
  else if k = ("b/y.imp").data then some entry0
  else none

/-- A metadata entry whose scenario counts disagree (one input scenario,
no output scenario). -/
def entryBad : MetaEntry := MetaEntry.mk ("bad").data [[]] [] none

/-- Tag discriminator: is the outcome `passed`? -/
def isPassedO : Outcome → Bool
  | .passed => true
  | _ => false

/-- Tag discriminator: is the outcome `failed`? -/
def isFailedO : Outcome → Bool
  | .failed _ _ => true
  | _ => false

/-- Tag discriminator: is the outcome `compilationFailed` or
`compilationError`? -/
def isCompO : Outcome → Bool
  | .compilationFailed => true
  | .compilationError => true
  | _ => false

/-- Tag discriminator: is the outcome `executionError`? -/
def isExecO : Outcome → Bool
  | .executionError => true
  | _ => false

/-- The immutable registry-visible part of an entry: title, input scenarios
and output scenarios (everything except the harness-added `real_output`). -/
def metaShape (m : MetaEntry) : Str × List (List Str) × List (List Str) :=
  (m.title, m.input, m.output)

/-- The entry component of a `test_imp` run's final state. -/
def metaOf : RunRes (MetaEntry × FS × Summary × List Outcome) → MetaEntry
  | .ok a => a.1
  | .aborted a => a.1

/-! ## Lemmas about the splitting primitives -/

/-- The first part produced by `pySplit` is the text before the first
separator. -/
theorem pySplit_head (sep : Char) :
    ∀ s : Str, ∃ t, pySplit sep s = upToSep sep s :: t := by
  intro s
  induction s with
  | nil => exact ⟨[], rfl⟩
  | cons c rest ih =>
    by_cases hc : c = sep
    · exact ⟨pySplit sep rest, by simp [pySplit, upToSep, hc]⟩
    · rcases ih with ⟨t, ht⟩
      exact ⟨t, by simp [pySplit, upToSep, hc, ht]⟩

/-- Lemma: `pySplit` peels off the text before the first separator and recurses on
the text after it. -/
theorem pySplit_break (sep : Char) :
    ∀ s : Str, pySplit sep s =
      match breakAtSep sep s with
      | none => [s]
      | some p => p.1 :: pySplit sep p.2 := by
  intro s
  induction s with
  | nil => rfl
  | cons c rest ih =>
    by_cases hc : c = sep
    · simp [pySplit, breakAtSep, hc]
    · cases hb : breakAtSep sep rest with
      | none =>
        rw [hb] at ih
        simp [pySplit, breakAtSep, hc, hb, ih]
      | some p =>
        rw [hb] at ih
        simp [pySplit, breakAtSep, hc, hb, ih]

/-- The token the parser extracts from one line: the stripped text between
the first separator and the second (or the end of the line). -/
theorem lineTok_eq (line : Str) :
    lineTok line =
      (breakAtSep '>' line).map (fun p => pyStrip (upToSep '>' p.2)) := by
  cases hb : breakAtSep '>' line with
  | none =>
    have h := pySplit_break '>' line
    rw [hb] at h
    simp [lineTok, h]
  | some p =>
    have h := pySplit_break '>' line
    rw [hb] at h
    rcases pySplit_head '>' p.2 with ⟨t, ht⟩
    simp [lineTok, h, ht]

/-- Claim C1, counterexample: on the line `'x > 1 > 2'` the parser does not
return the token `'1 > 2'` (everything after the first `'>'`); it returns
`'1'`, the stripped segment between the first and second `'>'`, because the
code takes `line.split('>')[1]`. -/
theorem c1_counterexample :
    parse_output ("x > 1 > 2").data ≠ [("1 > 2").data] := by
  decide

/-- Claim C1 (amended): for every raw output text, `parse_output` returns
one token per line containing at least one `'>'`, in line order, each token
equal to the trimmed text between the first `'>'` of the line and the next
`'>'` (to the end of the line when there is no second `'>'`); lines without
`'>'` are dropped; and on `'a\nb > 1 \nc\nd > 2'` it yields exactly
`["1", "2"]`. -/
theorem c1_amended_parse :
    ∀ raw : Str,
      parse_output raw =
        (pySplit '\n' raw).filterMap
          (fun line => (breakAtSep '>' line).map
            (fun p => pyStrip (upToSep '>' p.2))) ∧
      parse_output ("a\nb > 1 \nc\nd > 2").data = [("1").data, ("2").data] := by
  intro raw
  constructor
  · unfold parse_output
    rw [show lineTok = (fun line => (breakAtSep '>' line).map
      (fun p => pyStrip (upToSep '>' p.2))) from funext lineTok_eq]
  · decide

/-- Lemma: `pySplitMax` with two splits indexes part 2 exactly when the string has
a second separator, and that part is the text after it. -/
theorem splitMax2_get2 (sep : Char) (s : Str) :
    (pySplitMax sep 2 s).get? 2 = afterSecondSep sep s := by
  show (pySplitMax sep (Nat.succ (Nat.succ 0)) s).get? 2 = afterSecondSep sep s
  cases h1 : breakAtSep sep s with
  | none => simp [pySplitMax, afterSecondSep, h1]
  | some p =>
    cases h2 : breakAtSep sep p.2 with
    | none => simp [pySplitMax, afterSecondSep, h1, h2]
    | some q => simp [pySplitMax, afterSecondSep, h1, h2]

/-- Lemma: `breakAtSep` finds nothing exactly when the separator does not occur. -/
theorem breakAtSep_none_iff (sep : Char) :
    ∀ s : Str, breakAtSep sep s = none ↔ List.count sep s = 0 := by
  intro s
  induction s with
  | nil => simp [breakAtSep]
  | cons c rest ih =>
    by_cases hc : c = sep
    · subst hc
      simp [breakAtSep, List.count_cons]
    · simp [breakAtSep, List.count_cons, hc, ih, Ne.symm hc]

/-- Splitting off the first separator decreases the separator count by
one. -/
theorem breakAtSep_count (sep : Char) :
    ∀ s p, breakAtSep sep s = some p →
      List.count sep s = List.count sep p.2 + 1 := by
  intro s
  induction s with
  | nil => intro p h; simp [breakAtSep] at h
  | cons c rest ih =>
    intro p h
    by_cases hc : c = sep
    · subst hc
      simp [breakAtSep] at h
      rw [← h]
      simp [List.count_cons]
    · simp [breakAtSep, hc] at h
      rcases h with ⟨a, b, hab, hp⟩
      rw [← hp]
      simp [List.count_cons, Ne.symm hc]
      exact ih (a, b) hab

/-- A second separator is missing exactly when the string holds fewer than
two separators. -/
theorem afterSecondSep_none_iff (sep : Char) (s : Str) :
    afterSecondSep sep s = none ↔ List.count sep s < 2 := by
  unfold afterSecondSep
  cases h1 : breakAtSep sep s with
  | none =>
    have h0 := (breakAtSep_none_iff sep s).1 h1
    simp [h0]
  | some p =>
    have hc1 := breakAtSep_count sep s p h1
    cases h2 : breakAtSep sep p.2 with
    | none =>
      have h0 := (breakAtSep_none_iff sep p.2).1 h2
      simp [h2]
      omega
    | some q =>
      have hc2 := breakAtSep_count sep p.2 q h2
      simp [h2]
      omega

/-- Claim C10: `load_meta` keys the registry on the substring after the
second `'/'` of the path; a path with fewer than two `'/'` raises an
uncaught `IndexError` (not the `NoMetaError` signal); and `NoMetaError`
arises exactly when the derived key is absent from the registry. -/
theorem c10_load_meta_key :
    ∀ (reg : Reg) (p : Str),
      (load_meta reg p =
        match afterSecondSep '/' p with
        | none => LoadResult.indexError
        | some key =>
          match reg key with
          | none => LoadResult.noMeta
          | some m => LoadResult.found key m) ∧
      (load_meta reg p = LoadResult.indexError ↔ List.count '/' p < 2) ∧
      (∀ key m, load_meta reg p = LoadResult.found key m ↔
        afterSecondSep '/' p = some key ∧ reg key = some m) ∧
      (load_meta reg p = LoadResult.noMeta ↔
        ∃ key, afterSecondSep '/' p = some key ∧ reg key = none) := by
  intro reg p
  have hchar : load_meta reg p =
      match afterSecondSep '/' p with
      | none => LoadResult.indexError
      | some key =>
        match reg key with
        | none => LoadResult.noMeta
        | some m => LoadResult.found key m := by
    unfold load_meta
    rw [splitMax2_get2]
  refine ⟨hchar, ?_, ?_, ?_⟩
  · rw [hchar, ← afterSecondSep_none_iff]
    cases ha : afterSecondSep '/' p with
    | none => simp
    | some key => cases hr : reg key <;> simp [hr]
  · intro key m
    rw [hchar]
    cases ha : afterSecondSep '/' p with
    | none => simp
    | some k =>
      cases hr : reg k with
      | none =>
        simp [hr]
        rintro hk hm
        subst hk
        rw [hr] at hm
        exact Option.noConfusion hm
      | some m2 =>
        simp [hr]
        intro hk
        subst hk
        rw [hr]
        simp
  · rw [hchar]
    cases ha : afterSecondSep '/' p with
    | none => simp
    | some k => cases hr : reg k <;> simp [hr]

/-- Claim C10, witness: a path with a single `'/'` hits the uncaught
`IndexError`, and the fixture path resolves to its entry under the key
after the second `'/'`. -/
theorem c10_load_meta_key_witness :
    load_meta reg0 ("in/ab.imp").data = LoadResult.indexError ∧
    load_meta reg0 fpathW = LoadResult.found keyW entry0 := by
  constructor
  · exact (c10_load_meta_key reg0 ("in/ab.imp").data).2.1.mpr (by decide)
  · exact ((c10_load_meta_key reg0 fpathW).2.2.1 keyW entry0).mpr
      ⟨by decide, by decide⟩

/-- Claim C4: when a test case's input-scenario count differs from its
expected-output-scenario count, `test_imp` reports `MalformedMetadata`
exactly once for the whole case, leaves the entry, the file system and the
summary untouched, and its result does not depend on the toolchain at all —
no compile or execute subprocess call can influence it. -/
theorem c4_malformed_meta (env : Env) (source : Option Bytes)
    (tmp : Nat → Str) (meta : MetaEntry) (fs : FS) (s : Summary)
    (h : meta.input.length ≠ meta.output.length) :
    test_imp env source tmp meta fs s =
      .ok (meta, fs, s, [Outcome.malformedMetadata]) ∧
    ∀ (env2 : Env) (source2 : Option Bytes) (tmp2 : Nat → Str),
      test_imp env2 source2 tmp2 meta fs s = test_imp env source tmp meta fs s := by
  have hmain : ∀ (e : Env) (so : Option Bytes) (t : Nat → Str),
      test_imp e so t meta fs s = .ok (meta, fs, s, [Outcome.malformedMetadata]) := by
    intro e so t
    unfold test_imp
    simp [h, record]
  exact ⟨hmain env source tmp,
    fun e2 so2 t2 => (hmain e2 so2 t2).trans (hmain env source tmp).symm⟩

/-- Claim C4, witness: the fixture entry with one input scenario and no
output scenario yields exactly one `MalformedMetadata` and an unchanged
state. -/
theorem c4_malformed_meta_witness :
    test_imp envOk (some [7]) (tmpGenW fpathW) entryBad fsEmpty s0 =
      .ok (entryBad, fsEmpty, s0, [Outcome.malformedMetadata]) :=
  (c4_malformed_meta envOk (some [7]) (tmpGenW fpathW) entryBad fsEmpty s0
    (by decide)).1

/-- Claim C5, counterexample: handling a `MalformedMetadata` outcome does
not increment `no_meta` (nor any other counter) — `test_imp` only prints
the warning and returns, so the claimed mapping
`MalformedMetadata → no_meta` fails. -/
theorem c5_counterexample :
    ¬ ((record (Summary.mk 0 0 0 0 0) Outcome.malformedMetadata).no_meta =
        (Summary.mk 0 0 0 0 0).no_meta + 1) := by
  decide

/-- Two summaries with equal counters are equal. -/
theorem summary_ext (a b : Summary)
    (h1 : a.failed = b.failed) (h2 : a.passed = b.passed)
    (h3 : a.compilation_failed = b.compilation_failed)
    (h4 : a.no_meta = b.no_meta) (h5 : a.exceptions = b.exceptions) :
    a = b := by
  cases a
  cases b
  simp_all

/-- Folding `record` counts the outcome tags into the counters. -/
theorem foldl_record_counts (l : List Outcome) :
    ∀ s : Summary,
      (l.foldl record s).passed = s.passed + l.countP isPassedO ∧
      (l.foldl record s).failed = s.failed + l.countP isFailedO ∧
      (l.foldl record s).compilation_failed =
        s.compilation_failed + l.countP isCompO ∧
      (l.foldl record s).exceptions = s.exceptions + l.countP isExecO ∧
      (l.foldl record s).no_meta = s.no_meta := by
  induction l with
  | nil => intro s; simp
  | cons o rest ih =>
    intro s
    have h := ih (record s o)
    rcases h with ⟨hp, hf, hc, he, hn⟩
    refine ⟨?_, ?_, ?_, ?_, ?_⟩ <;>
      · simp only [List.foldl_cons, List.countP_cons, hp, hf, hc, he, hn]
        cases o <;> simp [record, isPassedO, isFailedO, isCompO, isExecO] <;> omega

/-- Claim C5 (amended): each handled outcome updates the counters by tag —
`Passed` increments `passed`, `Failed` increments `failed`,
`CompilationFailed` and `CompilationError` increment `compilation_failed`,
`ExecutionError` increments `exceptions`, while `MissingMetadata` and
`MalformedMetadata` increment nothing (`no_meta` never changes on any
reachable path); hence after any sequence of outcomes the counters equal
the per-tag counts, independent of arrival order. -/
theorem c5_amended_record_counts :
    ∀ (s : Summary) (l : List Outcome),
      (l.foldl record s).passed = s.passed + l.countP isPassedO ∧
      (l.foldl record s).failed = s.failed + l.countP isFailedO ∧
      (l.foldl record s).compilation_failed =
        s.compilation_failed + l.countP isCompO ∧
      (l.foldl record s).exceptions = s.exceptions + l.countP isExecO ∧
      (l.foldl record s).no_meta = s.no_meta ∧
      (∀ l2 : List Outcome, l.Perm l2 →
        l.foldl record s = l2.foldl record s) := by
  intro s l
  rcases foldl_record_counts l s with ⟨hp, hf, hc, he, hn⟩
  refine ⟨hp, hf, hc, he, hn, ?_⟩
  intro l2 hperm
  rcases foldl_record_counts l2 s with ⟨hp2, hf2, hc2, he2, hn2⟩
  refine summary_ext _ _ ?_ ?_ ?_ ?_ ?_
  · rw [hf, hf2, hperm.countP_eq]
  · rw [hp, hp2, hperm.countP_eq]
  · rw [hc, hc2, hperm.countP_eq]
  · rw [hn, hn2]
  · rw [he, he2, hperm.countP_eq]

/-- Claim C5, witness: concrete fold where two outcomes arrive in either
order and give the identical summary. -/
theorem c5_amended_record_counts_witness :
    List.foldl record (Summary.mk 0 0 0 0 0)
        [Outcome.passed, Outcome.executionError] =
      List.foldl record (Summary.mk 0 0 0 0 0)
        [Outcome.executionError, Outcome.passed] :=
  (c5_amended_record_counts (Summary.mk 0 0 0 0 0)
      [Outcome.passed, Outcome.executionError]).2.2.2.2.2
    [Outcome.executionError, Outcome.passed]
    (List.Perm.swap Outcome.executionError Outcome.passed [])

/-- Claim C6: classification of one compile call.  If the captured compiler
output decodes to text containing `'Syntax error'`, the call fails as
`CompilationFailed` and nothing is written to the artifact path; if the
subprocess cannot be invoked or its output cannot be decoded, the call
fails as the distinct `CompilationError` with payload `real_output = e`;
on success the full captured byte stream is written verbatim to the
artifact path. -/
theorem c6_compile_branches :
    ∀ (env : Env) (src : Bytes) (fs : FS) (pth : Str),
      (∀ cb txt, env.compilerOut src = some cb → env.decode cb = some txt →
        containsSubstr syntaxErrMk txt = true →
        compile_to_file env (some src) fs pth = (CompileRes.syntaxFailed, fs)) ∧
      (env.compilerOut src = none →
        compile_to_file env (some src) fs pth = (CompileRes.exc, fs)) ∧
      (∀ cb, env.compilerOut src = some cb → env.decode cb = none →
        compile_to_file env (some src) fs pth = (CompileRes.exc, fs)) ∧
      (∀ cb txt, env.compilerOut src = some cb → env.decode cb = some txt →
        containsSubstr syntaxErrMk txt = false →
        compile_to_file env (some src) fs pth =
          (CompileRes.ok cb, fsSet fs pth cb) ∧
        fsSet fs pth cb pth = some cb) ∧
      (∀ meta fs2 tmpPath input_ output_ cb txt,
        env.compilerOut src = some cb → env.decode cb = some txt →
        containsSubstr syntaxErrMk txt = true →
        (TestSubject.test env (some src) meta fs2 tmpPath input_ output_).1 =
          TestRes.raiseCompFailed ∧
        (TestSubject.test env (some src) meta fs2 tmpPath
            input_ output_).2.1.real_output = some RealOut.compFailedMsg) ∧
      (∀ meta fs2 tmpPath input_ output_,
        env.compilerOut src = none →
        (TestSubject.test env (some src) meta fs2 tmpPath input_ output_).1 =
          TestRes.raiseCompExc ∧
        (TestSubject.test env (some src) meta fs2 tmpPath
            input_ output_).2.1.real_output = some RealOut.excPayload) ∧
      TestRes.raiseCompFailed ≠ TestRes.raiseCompExc := by
  intro env src fs pth
  refine ⟨?_, ?_, ?_, ?_, ?_, ?_, ?_⟩
  · intro cb txt h1 h2 h3
    simp [compile_to_file, h1, h2, h3]
  · intro h1
    simp [compile_to_file, h1]
  · intro cb h1 h2
    simp [compile_to_file, h1, h2]
  · intro cb txt h1 h2 h3
    exact ⟨by simp [compile_to_file, h1, h2, h3], by simp [fsSet]⟩
  · intro meta fs2 tmpPath input_ output_ cb txt h1 h2 h3
    constructor <;> simp [TestSubject.test, compile_to_file, h1, h2, h3]
  · intro meta fs2 tmpPath input_ output_ h1
    constructor <;> simp [TestSubject.test, compile_to_file, h1]
  · intro h
    exact TestRes.noConfusion h

/-- Claim C6, witness: on the syntax-error toolchain the compile call is
classified `CompilationFailed` with nothing written, and on a toolchain
whose compiler cannot be invoked the run raises the distinct
`CompilationException`. -/
theorem c6_compile_branches_witness :
    compile_to_file envSyn (some [7]) fsEmpty tmpPathW =
      (CompileRes.syntaxFailed, fsEmpty) ∧
    compile_to_file envOk (some [7]) fsEmpty tmpPathW =
      (CompileRes.ok [7], fsSet fsEmpty tmpPathW [7]) := by
  constructor
  · exact (c6_compile_branches envSyn [7] fsEmpty tmpPathW).1 [83]
      (("Syntax error").data) rfl rfl (by decide)
  · exact ((c6_compile_branches envOk [7] fsEmpty tmpPathW).2.2.2.1 [7] []
      (by decide) (by decide) (by decide)).1

/-- On a successful compile the returned file system is exactly the input
one with the captured bytes written at the artifact path. -/
theorem compile_to_file_ok_fs (env : Env) (source : Option Bytes) (fs : FS)
    (pth : Str) (cb : Bytes) (fs2 : FS)
    (h : compile_to_file env source fs pth = (CompileRes.ok cb, fs2)) :
    fs2 = fsSet fs pth cb := by
  cases source with
  | none => simp [compile_to_file] at h
  | some src =>
    cases hc : env.compilerOut src with
    | none => simp [compile_to_file, hc] at h
    | some compiled =>
      cases hd : env.decode compiled with
      | none => simp [compile_to_file, hc, hd] at h
      | some txt =>
        by_cases hs : containsSubstr syntaxErrMk txt
        · simp [compile_to_file, hc, hd, hs] at h
        · simp [compile_to_file, hc, hd, hs] at h
          rcases h with ⟨h1, h2⟩
          rw [← h1, ← h2]

/-- Claim C2, counterexample: a scenario that reaches the execution step
and ends in the execution-error branch leaves the temporary compiled
artifact on disk — `os.remove` sits after the `try/except`, so the
`RuntimeError` path never runs it.  Here the interpreter subprocess raises,
the outcome is the execution error, and the artifact file still holds the
compiled bytes. -/
theorem c2_counterexample :
    (TestSubject.test envExecFail (some [7]) entry0 fsEmpty tmpPathW
        [] []).1 = TestRes.raiseRuntime ∧
    ¬ ((TestSubject.test envExecFail (some [7]) entry0 fsEmpty tmpPathW
        [] []).2.2 tmpPathW = none) := by
  constructor
  · decide
  · decide

/-- Claim C2 (amended): the temporary artifact is gone after every scenario
whose `TestSubject.test` call returns normally — both the success and the
output-mismatch branch return the comparison boolean — but in the
execution-error branch the artifact file remains on disk with the compiled
bytes. -/
theorem c2_amended_cleanup :
    ∀ (env : Env) (source : Option Bytes) (meta : MetaEntry) (fs : FS)
      (tmpPath : Str) (input_ : Bytes) (output_ : List Str),
      (∀ b meta2 fs2,
        TestSubject.test env source meta fs tmpPath input_ output_ =
          (TestRes.ret b, meta2, fs2) → fs2 tmpPath = none) ∧
      (∀ meta2 fs2,
        TestSubject.test env source meta fs tmpPath input_ output_ =
          (TestRes.raiseRuntime, meta2, fs2) →
        ∃ cb, fs2 tmpPath = some cb) := by
  intro env source meta fs tmpPath input_ output_
  rcases hc : compile_to_file env source (fsSet fs tmpPath []) tmpPath
    with ⟨cr, fsc⟩
  constructor
  · intro b meta2 fs2 h
    unfold TestSubject.test at h
    rw [hc] at h
    cases cr with
    | syntaxFailed => simp at h
    | exc => simp at h
    | ok compiled =>
      cases hi : env.interpOut compiled input_ with
      | none => simp [hi] at h
      | some resultBytes =>
        cases hd : env.decode resultBytes with
        | none => simp [hi, hd] at h
        | some text =>
          simp [hi, hd] at h
          rcases h with ⟨_, _, hfs⟩
          rw [← hfs]
          simp [fsRemove]
  · intro meta2 fs2 h
    unfold TestSubject.test at h
    rw [hc] at h
    cases cr with
    | syntaxFailed => simp at h
    | exc => simp at h
    | ok compiled =>
      have hfsc := compile_to_file_ok_fs env source (fsSet fs tmpPath [])
        tmpPath compiled fsc hc
      cases hi : env.interpOut compiled input_ with
      | none =>
        simp [hi] at h
        rcases h with ⟨_, hfs⟩
        rw [← hfs, hfsc]
        exact ⟨compiled, by simp [fsSet]⟩
      | some resultBytes =>
        cases hd : env.decode resultBytes with
        | none => simp [hi, hd] at h
        | some text => simp [hi, hd] at h

/-- Claim C2, witness: on the all-success toolchain the scenario returns
normally and the artifact path is empty afterwards. -/
theorem c2_amended_cleanup_witness :
    (TestSubject.test envOk (some [7]) entry0 fsEmpty tmpPathW
        [] [("10").data]).2.2 tmpPathW = none :=
  (c2_amended_cleanup envOk (some [7]) entry0 fsEmpty tmpPathW
      [] [("10").data]).1 true
    (TestSubject.test envOk (some [7]) entry0 fsEmpty tmpPathW
        [] [("10").data]).2.1
    (TestSubject.test envOk (some [7]) entry0 fsEmpty tmpPathW
        [] [("10").data]).2.2
    rfl

/-- Claim C8: when compilation and execution both succeed, the parsed token
sequence is compared to the scenario's expected sequence by ordered exact
list equality of strings (no normalization), the scenario classifies as
`Passed` exactly when they are equal, and otherwise as `Failed` carrying
the expected and the actual sequence. -/
theorem c8_compare_exact :
    ∀ (env : Env) (src : Bytes) (meta : MetaEntry) (fs : FS) (tmpPath : Str)
      (input_ : Bytes) (output_ : List Str) (cb : Bytes) (ctxt : Str)
      (rb : Bytes) (otxt : Str),
      env.compilerOut src = some cb → env.decode cb = some ctxt →
      containsSubstr syntaxErrMk ctxt = false →
      env.interpOut cb input_ = some rb → env.decode rb = some otxt →
      (TestSubject.test env (some src) meta fs tmpPath input_ output_).1 =
        TestRes.ret (decide (parse_output otxt = output_)) ∧
      (TestSubject.test env (some src) meta fs tmpPath input_ output_).2.1 =
        { meta with real_output := some (RealOut.parsed (parse_output otxt)) } ∧
      stepOutcome output_
          (TestSubject.test env (some src) meta fs tmpPath input_ output_).1
          (TestSubject.test env (some src) meta fs tmpPath input_ output_).2.1 =
        some (if parse_output otxt = output_ then Outcome.passed
              else Outcome.failed output_ (parse_output otxt)) := by
  intro env src meta fs tmpPath input_ output_ cb ctxt rb otxt h1 h2 h3 h4 h5
  have htest : TestSubject.test env (some src) meta fs tmpPath input_ output_ =
      (TestRes.ret (decide (parse_output otxt = output_)),
       { meta with real_output := some (RealOut.parsed (parse_output otxt)) },
       fsRemove (fsSet (fsSet fs tmpPath []) tmpPath cb) tmpPath) := by
    simp [TestSubject.test, compile_to_file, h1, h2, h3, h4, h5]
  refine ⟨by rw [htest], by rw [htest], ?_⟩
  rw [htest]
  by_cases hp : parse_output otxt = output_
  · simp [stepOutcome, hp]
  · simp [stepOutcome, hp, realOutputToks]

/-- Claim C8, witness: on the all-success toolchain whose interpreter
prints `'> 10'`, the scenario expecting `["10"]` classifies as `Passed`. -/
theorem c8_compare_exact_witness :
    stepOutcome [("10").data]
        (TestSubject.test envOk (some [7]) entry0 fsEmpty tmpPathW
            [] [("10").data]).1
        (TestSubject.test envOk (some [7]) entry0 fsEmpty tmpPathW
            [] [("10").data]).2.1 = some Outcome.passed := by
  have h := (c8_compare_exact envOk [7] entry0 fsEmpty tmpPathW
      [] [("10").data] [7] [] [62, 32, 49, 48] (("> 10").data)
      (by decide) (by decide) (by decide) (by decide) (by decide)).2.2
  rw [h]
  decide

/-- Claim C9: the outcome of one scenario run is a function of the
toolchain, the source contents and the scenario alone — the incoming
mutable state (`meta` dict contents left by earlier scenarios, file-system
state, temporary path) never changes the resulting `TestRes` or the
classified `Outcome`, so re-running an unchanged scenario against an
unchanged deterministic toolchain yields an identical outcome. -/
theorem c9_no_hidden_state :
    ∀ (env : Env) (source : Option Bytes) (input_ : Bytes)
      (output_ : List Str) (m1 m2 : MetaEntry) (fs1 fs2 : FS) (t1 t2 : Str),
      (TestSubject.test env source m1 fs1 t1 input_ output_).1 =
        (TestSubject.test env source m2 fs2 t2 input_ output_).1 ∧
      stepOutcome output_
          (TestSubject.test env source m1 fs1 t1 input_ output_).1
          (TestSubject.test env source m1 fs1 t1 input_ output_).2.1 =
        stepOutcome output_
          (TestSubject.test env source m2 fs2 t2 input_ output_).1
          (TestSubject.test env source m2 fs2 t2 input_ output_).2.1 := by
  intro env source input_ output_ m1 m2 fs1 fs2 t1 t2
  cases source with
  | none =>
    constructor <;> simp [TestSubject.test, compile_to_file, stepOutcome]
  | some src =>
    cases hc : env.compilerOut src with
    | none =>
      constructor <;> simp [TestSubject.test, compile_to_file, hc, stepOutcome]
    | some compiled =>
      cases hd : env.decode compiled with
      | none =>
        constructor <;>
          simp [TestSubject.test, compile_to_file, hc, hd, stepOutcome]
      | some txt =>
        by_cases hs : containsSubstr syntaxErrMk txt
        · constructor <;>
            simp [TestSubject.test, compile_to_file, hc, hd, hs, stepOutcome]
        · cases hi : env.interpOut compiled input_ with
          | none =>
            constructor <;>
              simp [TestSubject.test, compile_to_file, hc, hd, hs, hi,
                stepOutcome]
          | some rb =>
            cases hdr : env.decode rb with
            | none =>
              constructor <;>
                simp [TestSubject.test, compile_to_file, hc, hd, hs, hi, hdr,
                  stepOutcome]
            | some otxt =>
              constructor <;>
                simp [TestSubject.test, compile_to_file, hc, hd, hs, hi, hdr,
                  stepOutcome, realOutputToks]

/-- One scenario run only ever touches the `real_output` key of the entry:
title, input and output scenarios are preserved. -/
theorem test_meta_shape (env : Env) (source : Option Bytes) (meta : MetaEntry)
    (fs : FS) (tmpPath : Str) (input_ : Bytes) (output_ : List Str) :
    metaShape (TestSubject.test env source meta fs tmpPath
        input_ output_).2.1 = metaShape meta := by
  unfold TestSubject.test
  rcases hc : compile_to_file env source (fsSet fs tmpPath []) tmpPath
    with ⟨cr, fsc⟩
  cases cr with
  | syntaxFailed => simp [metaShape]
  | exc => simp [metaShape]
  | ok compiled =>
    cases hi : env.interpOut compiled input_ with
    | none => simp [hi, metaShape]
    | some rb =>
      cases hd : env.decode rb with
      | none => simp [hi, hd, metaShape]
      | some text => simp [hi, hd, metaShape]

/-- The scenario loop of `test_imp` preserves the entry's registry-visible
fields. -/
theorem test_imp_go_meta_shape (env : Env) (source : Option Bytes)
    (tmp : Nat → Str) :
    ∀ (scens : List (List Str × List Str)) (i : Nat) (meta : MetaEntry)
      (fs : FS) (s : Summary),
      metaShape (metaOf (test_imp_go env source tmp i scens meta fs s)) =
        metaShape meta := by
  intro scens
  induction scens with
  | nil => intro i meta fs s; simp [test_imp_go, metaOf]
  | cons sc rest ih =>
    intro i meta fs s
    rcases sc with ⟨in_, out_⟩
    unfold test_imp_go
    rcases ht : TestSubject.test env source meta fs (tmp i)
        (load_input env in_) out_ with ⟨res, meta2, fs2⟩
    have hshape : metaShape meta2 = metaShape meta := by
      have h := test_meta_shape env source meta fs (tmp i)
        (load_input env in_) out_
      rw [ht] at h
      exact h
    cases ho : stepOutcome out_ res meta2 with
    | none => simp [ho, metaOf, hshape]
    | some o =>
      cases hrec : test_imp_go env source tmp (i + 1) rest meta2 fs2
          (record s o) with
      | ok a =>
        have h2 := ih (i + 1) meta2 fs2 (record s o)
        rw [hrec] at h2
        simp [ho, hrec, metaOf] at h2 ⊢
        rw [h2, hshape]
      | aborted a =>
        have h2 := ih (i + 1) meta2 fs2 (record s o)
        rw [hrec] at h2
        simp [ho, hrec, metaOf] at h2 ⊢
        rw [h2, hshape]

/-- Lemma: `test_imp` preserves the entry's registry-visible fields. -/
theorem test_imp_meta_shape (env : Env) (source : Option Bytes)
    (tmp : Nat → Str) (meta : MetaEntry) (fs : FS) (s : Summary) :
    metaShape (metaOf (test_imp env source tmp meta fs s)) = metaShape meta := by
  unfold test_imp
  split
  · simp [metaOf]
  · exact test_imp_go_meta_shape env source tmp (meta.input.zip meta.output)
      0 meta fs s

/-- A successful lookup returns the entry stored at the derived key. -/
theorem load_meta_found (reg : Reg) (p : Str) (key : Str) (m : MetaEntry)
    (h : load_meta reg p = LoadResult.found key m) : reg key = some m := by
  unfold load_meta at h
  cases hg : (pySplitMax '/' 2 p).get? 2 with
  | none => rw [hg] at h; simp at h
  | some k =>
    rw [hg] at h
    cases hr : reg k with
    | none => simp [hr] at h
    | some m2 =>
      simp [hr] at h
      rcases h with ⟨hk, hm⟩
      subst hk
      subst hm
      exact hr

/-- Claim C3, counterexample: running the dispatcher over one file mutates
the registry entry that was looked up — the harness stores the scenario's
parsed output under the new key `'real_output'` inside the aliased dict
entry, so the entry (in particular its key set) differs from its state at
process start. -/
theorem c3_counterexample :
    regOf (test_dir envOk srcsW tmpGenW [fpathW] reg0 fsEmpty s0) keyW ≠
      reg0 keyW := by
  decide

/-- Claim C3 (amended): the harness never changes the `title`, `input` or
`output` of any registry entry — those fields read back unchanged at every
key after any run — but the entries themselves are not immutable: the
harness adds/overwrites the `real_output` key of each entry it executes. -/
theorem c3_amended_registry_fields :
    ∀ (env : Env) (sources : Str → Option Bytes) (tmp : Str → Nat → Str)
      (files : List Str) (reg : Reg) (fs : FS) (s : Summary) (k : Str),
      ((regOf (test_dir env sources tmp files reg fs s)) k).map metaShape =
        (reg k).map metaShape := by
  intro env sources tmp files
  induction files with
  | nil => intro reg fs s k; simp [test_dir, regOf]
  | cons fpath rest ih =>
    intro reg fs s k
    unfold test_dir
    cases hl : load_meta reg fpath with
    | indexError => simp [regOf]
    | noMeta =>
      have h := ih reg fs (record s Outcome.missingMetadata) k
      cases hrec : test_dir env sources tmp rest reg fs
          (record s Outcome.missingMetadata) with
      | ok a =>
        rcases a with ⟨r2, f2, s2, os⟩
        rw [hrec] at h
        simpa [regOf] using h
      | aborted a =>
        rcases a with ⟨r2, f2, s2, os⟩
        rw [hrec] at h
        simpa [regOf] using h
    | found key m =>
      have hreg : reg key = some m := load_meta_found reg fpath key m hl
      dsimp only
      cases hti : test_imp env (sources fpath) (tmp fpath) m fs s with
      | ok a =>
        rcases a with ⟨m2, fs2, s2, os1⟩
        have hm2 : metaShape m2 = metaShape m := by
          have h := test_imp_meta_shape env (sources fpath) (tmp fpath) m fs s
          rw [hti] at h
          simpa [metaOf] using h
        have hupd : ((regSet reg key m2) k).map metaShape =
            (reg k).map metaShape := by
          by_cases hk : k = key
          · subst hk
            simp [regSet, hreg, hm2]
          · simp [regSet, hk]
        have h := ih (regSet reg key m2) fs2 s2 k
        dsimp only
        cases hrec : test_dir env sources tmp rest (regSet reg key m2)
            fs2 s2 with
        | ok a2 =>
          rcases a2 with ⟨r3, f3, s3, os⟩
          rw [hrec] at h
          simp [regOf] at h
          simp [regOf]
          exact h.trans hupd
        | aborted a2 =>
          rcases a2 with ⟨r3, f3, s3, os⟩
          rw [hrec] at h
          simp [regOf] at h
          simp [regOf]
          exact h.trans hupd
      | aborted a =>
        rcases a with ⟨m2, fs2, s2, os1⟩
        have hm2 : metaShape m2 = metaShape m := by
          have h := test_imp_meta_shape env (sources fpath) (tmp fpath) m fs s
          rw [hti] at h
          simpa [metaOf] using h
        simp [regOf]
        by_cases hk : k = key
        · subst hk
          simp [regSet, hreg, hm2]
        · simp [regSet, hk]

/-- When every byte stream decodes, no scenario run ends in the uncaught
decode exception. -/
theorem test_no_uncaught (env : Env)
    (hdec : ∀ b, (env.decode b).isSome = true) (source : Option Bytes)
    (meta : MetaEntry) (fs : FS) (tmpPath : Str) (input_ : Bytes)
    (output_ : List Str) :
    (TestSubject.test env source meta fs tmpPath input_ output_).1 ≠
      TestRes.uncaughtDecode := by
  unfold TestSubject.test
  rcases hc : compile_to_file env source (fsSet fs tmpPath []) tmpPath
    with ⟨cr, fsc⟩
  cases cr with
  | syntaxFailed => simp
  | exc => simp
  | ok compiled =>
    cases hi : env.interpOut compiled input_ with
    | none => simp [hi]
    | some rb =>
      cases hd : env.decode rb with
      | none =>
        have h := hdec rb
        rw [hd] at h
        simp at h
      | some text => simp [hi, hd]

/-- Every caught scenario result classifies to some outcome. -/
theorem stepOutcome_total (out_ : List Str) (res : TestRes) (m : MetaEntry)
    (h : res ≠ TestRes.uncaughtDecode) :
    ∃ o, stepOutcome out_ res m = some o := by
  cases res with
  | ret b => exact ⟨_, rfl⟩
  | raiseCompFailed => exact ⟨_, rfl⟩
  | raiseCompExc => exact ⟨_, rfl⟩
  | raiseRuntime => exact ⟨_, rfl⟩
  | uncaughtDecode => exact absurd rfl h

/-- With a total decoder the scenario loop completes normally. -/
theorem test_imp_go_total (env : Env)
    (hdec : ∀ b, (env.decode b).isSome = true) (source : Option Bytes)
    (tmp : Nat → Str) :
    ∀ (scens : List (List Str × List Str)) (i : Nat) (meta : MetaEntry)
      (fs : FS) (s : Summary),
      ∃ a, test_imp_go env source tmp i scens meta fs s = RunRes.ok a := by
  intro scens
  induction scens with
  | nil => intro i meta fs s; exact ⟨_, rfl⟩
  | cons sc rest ih =>
    intro i meta fs s
    rcases sc with ⟨in_, out_⟩
    unfold test_imp_go
    rcases ht : TestSubject.test env source meta fs (tmp i)
        (load_input env in_) out_ with ⟨res, meta2, fs2⟩
    have hne : res ≠ TestRes.uncaughtDecode := by
      have h := test_no_uncaught env hdec source meta fs (tmp i)
        (load_input env in_) out_
      rw [ht] at h
      exact h
    rcases stepOutcome_total out_ res meta2 hne with ⟨o, ho⟩
    dsimp only
    rw [ho]
    dsimp only
    rcases ih (i + 1) meta2 fs2 (record s o) with ⟨a, ha⟩
    rcases a with ⟨m3, f3, s3, os⟩
    rw [ha]
    exact ⟨_, rfl⟩

/-- With a total decoder `test_imp` completes normally. -/
theorem test_imp_total (env : Env)
    (hdec : ∀ b, (env.decode b).isSome = true) (source : Option Bytes)
    (tmp : Nat → Str) (meta : MetaEntry) (fs : FS) (s : Summary) :
    ∃ a, test_imp env source tmp meta fs s = RunRes.ok a := by
  unfold test_imp
  split
  · exact ⟨_, rfl⟩
  · exact test_imp_go_total env hdec source tmp (meta.input.zip meta.output)
      0 meta fs s

/-- Claim C7, counterexample: one file whose interpreter output does not
decode as UTF-8 aborts the whole walk — `result.decode('utf-8')` sits
outside the `try/except`, the raised error matches no handler in
`test_imp` or `test_dir`, so the second file (which has metadata and
scenarios of its own) is never processed and no outcome at all is
produced. -/
theorem c7_counterexample :
    isAbortedRun (test_dir envDecodeFail srcsW tmpGenW [fpathA, fpathB]
        regAB fsEmpty s0) = true ∧
    outcomesOf (test_dir envDecodeFail srcsW tmpGenW [fpathA, fpathB]
        regAB fsEmpty s0) = [] := by
  constructor
  · decide
  · decide

/-- Claim C7 (amended): a file with no registry entry yields the
`MissingMetadata` warning outcome and the walk continues with the remaining
files unchanged; and whenever every interpreter output decodes and every
walked path carries at least two `'/'`, every toolchain error is converted
into an outcome at the scenario boundary and the walk over all files
terminates normally — but an undecodable interpreter output (or a path
with fewer than two `'/'`) raises past the classifier and aborts the run. -/
theorem c7_amended_walk :
    ∀ (env : Env) (sources : Str → Option Bytes) (tmp : Str → Nat → Str)
      (files : List Str) (reg : Reg) (fs : FS) (s : Summary),
      (∀ b, (env.decode b).isSome = true) →
      (∀ p, p ∈ files → 2 ≤ List.count '/' p) →
      (∃ a, test_dir env sources tmp files reg fs s = RunRes.ok a) ∧
      (∀ p restf, files = p :: restf →
        load_meta reg p = LoadResult.noMeta →
        outcomesOf (test_dir env sources tmp files reg fs s) =
          Outcome.missingMetadata ::
            outcomesOf (test_dir env sources tmp restf reg fs s)) := by
  intro env sources tmp files
  induction files with
  | nil =>
    intro reg fs s hdec hp
    refine ⟨⟨_, rfl⟩, ?_⟩
    intro p restf hf
    exact absurd hf (by simp)
  | cons fpath rest ih =>
    intro reg fs s hdec hp
    constructor
    · have hcnt : 2 ≤ List.count '/' fpath := hp fpath (by simp)
      have hne : load_meta reg fpath ≠ LoadResult.indexError := by
        intro hle
        unfold load_meta at hle
        rw [splitMax2_get2] at hle
        cases ha : afterSecondSep '/' fpath with
        | none =>
          have hlt := (afterSecondSep_none_iff '/' fpath).1 ha
          omega
        | some key2 =>
          rw [ha] at hle
          cases hr : reg key2 with
          | none => simp [hr] at hle
          | some mm => simp [hr] at hle
      cases hl : load_meta reg fpath with
      | indexError => exact absurd hl hne
      | noMeta =>
        rcases (ih reg fs (record s Outcome.missingMetadata) hdec
          (fun p hp2 => hp p (by simp [hp2]))).1 with ⟨a, ha⟩
        rcases a with ⟨r2, f2, s2, os⟩
        unfold test_dir
        rw [hl]
        dsimp only
        rw [ha]
        exact ⟨_, rfl⟩
      | found key m =>
        rcases test_imp_total env hdec (sources fpath) (tmp fpath) m fs s
          with ⟨a, hti⟩
        rcases a with ⟨m2, fs2, s2, os1⟩
        rcases (ih (regSet reg key m2) fs2 s2 hdec
          (fun p hp2 => hp p (by simp [hp2]))).1 with ⟨a2, ha2⟩
        rcases a2 with ⟨r3, f3, s3, os⟩
        unfold test_dir
        rw [hl]
        dsimp only
        rw [hti]
        dsimp only
        rw [ha2]
        exact ⟨_, rfl⟩
    · intro p restf hf hnometa
      injection hf with h1 h2
      subst h1
      subst h2
      have hrs : record s Outcome.missingMetadata = s := rfl
      cases hrec : test_dir env sources tmp rest reg fs
          (record s Outcome.missingMetadata) with
      | ok a =>
        rcases a with ⟨r2, f2, s2, os⟩
        have hstep : test_dir env sources tmp (fpath :: rest) reg fs s =
            RunRes.ok (r2, f2, s2, Outcome.missingMetadata :: os) := by
          unfold test_dir
          rw [hnometa]
          dsimp only
          rw [hrec]
        rw [hrs] at hrec
        rw [hstep, hrec]
        simp [outcomesOf]
      | aborted a =>
        rcases a with ⟨r2, f2, s2, os⟩
        have hstep : test_dir env sources tmp (fpath :: rest) reg fs s =
            RunRes.aborted (r2, f2, s2, Outcome.missingMetadata :: os) := by
          unfold test_dir
          rw [hnometa]
          dsimp only
          rw [hrec]
        rw [hrs] at hrec
        rw [hstep, hrec]
        simp [outcomesOf]

/-- Claim C7, witness: with a total decoder and well-formed paths the walk
over the fixture corpus completes normally. -/
theorem c7_amended_walk_witness :
    ∃ a, test_dir envOk srcsW tmpGenW [fpathW] reg0 fsEmpty s0 =
      RunRes.ok a := by
  refine (c7_amended_walk envOk srcsW tmpGenW [fpathW] reg0 fsEmpty s0
    ?_ ?_).1
  · intro b
    show (if b = [62, 32, 49, 48] then some (("> 10").data)
      else some []).isSome = true
    split
    · rfl
    · rfl
  · intro p hp
    simp at hp
    subst hp
    decide
